import Mathlib

/-!
Verification development for the PharmOS model-versioning registry
(`src/ml/models/versioning.py`, class `ModelRegistry`).

The registry state (the in-memory dictionaries `models`, `versions`,
`deployments`, plus the on-disk artifact store) is embedded as association
lists with Python-dict semantics (setting an existing key replaces the
binding in place, setting a fresh key appends, `del` removes the binding).
Timestamps (`datetime.now().isoformat()`) are modelled as a `Nat` supplied
to each operation as `now`; ISO timestamp strings compare chronologically,
so `Nat` comparison is faithful.  MD5 digests are deterministic functions
of their input bytes; the digest is modelled as the input string itself
(`md5hex`), which preserves exactly the determinism the claims rely on.
Persistence (`_save_models` / `_save_versions` / `_save_deployments` and
the pickle writes) is modelled by a `saveOk : Bool` flag: when it is
`false`, the first persistence step of the call raises, exactly where the
Python code would raise.  An operation's outcome is either a returned
result envelope (`Outcome.ok`) or a propagated, uncaught Python exception
(`Outcome.exc`); both carry the in-memory registry state left behind.
Performance-metric values are modelled as `Int`; the claims under study
concern only the map structure and the literal `get(key, 0)` defaulting
and subtraction that the source performs.
-/

namespace PharmOS

/-- Lookup in a Python-dict modelled as an association list. -/
def dget {α : Type} (k : String) : List (String × α) → Option α
  | [] => none
  | kv :: rest => if kv.1 = k then some kv.2 else dget k rest

/-- Python `k in d` membership test. -/
def dcontains {α : Type} (k : String) (l : List (String × α)) : Bool :=
  (dget k l).isSome

/-- Python `d[k] = v`: replace the binding in place if the key exists,
otherwise append the new binding. -/
def dset {α : Type} (k : String) (v : α) : List (String × α) → List (String × α)
  | [] => [(k, v)]
  | kv :: rest => if kv.1 = k then (k, v) :: rest else kv :: dset k v rest

/-- Python `del d[k]`: remove the binding for `k`. -/
def derase {α : Type} (k : String) : List (String × α) → List (String × α)
  | [] => []
  | kv :: rest => if kv.1 = k then rest else kv :: derase k rest

/-- Python `s.startswith(pre)`, stated on the character lists. -/
def pyStartsWith (s pre : String) : Bool :=
  pre.data.isPrefixOf s.data

/-- Python `d.update(other)`: set each binding of `other` in order. -/
def dmerge {α : Type} (l updates : List (String × α)) : List (String × α) :=
  updates.foldl (fun acc kv => dset kv.1 kv.2 acc) l

/-- One entry of `self.models` (see `ModelRegistry.register_model`). -/
structure ModelEntry where
  model_id : String
  model_type : String
  description : String
  created_at : Nat
  latest_version : Option String
  total_versions : Int
  status : String
deriving DecidableEq

/-- One entry of `self.versions` (class `ModelVersion` of the source). -/
structure ModelVersion where
  model_id : String
  version : String
  model_type : String
  created_at : Nat
  metadata : List (String × String)
  performance_metrics : List (String × Int)
  training_data_hash : Option String
  model_hash : Option String
  deployment_status : String
  parent_version : Option String
  tags : List String
deriving DecidableEq

/-- One entry of `self.deployments`: the dict written by `deploy_version`
and `rollback_deployment`.  `previous_deployment` snapshots the prior slot
contents; `rollback_from` is set only by rollback.  The type is recursive
because the snapshots are full slot dictionaries. -/
inductive Deployment where
  | mk (model_id : String) (version : String) (deployed_at : Nat) (status : String)
      (previous_deployment : Option Deployment) (rollback_from : Option Deployment)

def Deployment.model_id : Deployment → String
  | .mk m _ _ _ _ _ => m

def Deployment.version : Deployment → String
  | .mk _ v _ _ _ _ => v

def Deployment.deployed_at : Deployment → Nat
  | .mk _ _ t _ _ _ => t

def Deployment.status : Deployment → String
  | .mk _ _ _ st _ _ => st

def Deployment.previous_deployment : Deployment → Option Deployment
  | .mk _ _ _ _ p _ => p

def Deployment.rollback_from : Deployment → Option Deployment
  | .mk _ _ _ _ _ r => r

/-- The full registry state: the three JSON-backed dictionaries plus the
artifact store (the pickled `model.pkl` payloads, keyed like `versions`). -/
structure Registry where
  models : List (String × ModelEntry)
  versions : List (String × ModelVersion)
  deployments : List (String × Deployment)
  artifacts : List (String × String)

/-- The empty registry (fresh `ModelRegistry` with no persisted files). -/
def emptyRegistry : Registry :=
  { models := [], versions := [], deployments := [], artifacts := [] }

/-- The uniform result envelope `{success: bool, error?: str}` that the
source returns from every public operation (operation-specific success
fields are not needed by the claims under study). -/
structure Res where
  success : Bool
  error : Option String
deriving DecidableEq

/-- Outcome of one call: a returned envelope, or an uncaught Python
exception propagating to the caller.  Both carry the in-memory registry
state as the call left it. -/
inductive Outcome where
  | ok (r : Res) (s : Registry)
  | exc (msg : String) (s : Registry)

/-- The registry state left behind by a call. -/
def Outcome.stateOf : Outcome → Registry
  | .ok _ s => s
  | .exc _ s => s

/-- Whether the call returned an envelope (rather than raising). -/
def Outcome.isEnvelope : Outcome → Bool
  | .ok _ _ => true
  | .exc _ _ => false

/-- The `success` flag of a returned envelope (`false` for an exception). -/
def Outcome.successOf : Outcome → Bool
  | .ok r _ => r.success
  | .exc _ _ => false

/-- Whether the call returned a failure envelope (`success == False`). -/
def Outcome.failedEnvelope : Outcome → Bool
  | .ok r _ => !r.success
  | .exc _ _ => false

/-- MD5 digest of a string.  The digest is a deterministic function of its
input; it is modelled as the input itself, which is all the claims use. -/
def md5hex (sdata : String) : String := sdata

/-- The canonical digest input of `create_version`:
`''.join(sorted(training_data))`.  Python `sorted` on strings is
lexicographic on code points, as is the `String` linear order. -/
def canonicalJoin (td : List String) : String :=
  String.join (List.insertionSort (fun a b => a ≤ b) td)

/-- Embedding of `ModelRegistry.register_model`.  Note that its
`self._save_models()` call is not wrapped in try/except, so a persistence
failure there propagates (after the in-memory insertion already
happened). -/
def register_model (saveOk : Bool) (now : Nat)
    (model_id model_type description : String) (s : Registry) : Outcome :=
  if dcontains model_id s.models then
    .ok ⟨false, some ("Model " ++ model_id ++ " already exists")⟩ s
  else
    let entry : ModelEntry :=
      { model_id := model_id, model_type := model_type, description := description,
        created_at := now, latest_version := none, total_versions := 0,
        status := "active" }
    let s1 : Registry := { s with models := dset model_id entry s.models }
    if saveOk then .ok ⟨true, none⟩ s1
    else .exc "PersistenceFailure" s1

/-- Embedding of `ModelRegistry.create_version`.  The pickle write, hash
computation, dictionary insertions and saves all sit inside one
try/except, so a persistence failure yields a failure envelope with the
in-memory dictionaries untouched (the artifact write is the first
persistence step).  `if training_data:` is Python truthiness: both `None`
and the empty list skip the hash. -/
def create_version (saveOk : Bool) (now : Nat) (model_id version : String)
    (model_instance : String) (training_data : Option (List String))
    (performance_metrics : Option (List (String × Int)))
    (metadata : Option (List (String × String)))
    (parent_version : Option String) (s : Registry) : Outcome :=
  match dget model_id s.models with
  | none => .ok ⟨false, some ("Model " ++ model_id ++ " not registered")⟩ s
  | some entry =>
    let version_key := model_id ++ ":" ++ version
    if dcontains version_key s.versions then
      .ok ⟨false, some ("Version " ++ version ++ " already exists for model " ++ model_id)⟩ s
    else
      let tdh : Option String :=
        match training_data with
        | some td => if td.isEmpty then none else some (md5hex (canonicalJoin td))
        | none => none
      let mv1 : ModelVersion :=
        { model_id := model_id, version := version, model_type := entry.model_type,
          created_at := now, metadata := metadata.getD [],
          performance_metrics := performance_metrics.getD [],
          training_data_hash := tdh, model_hash := none,
          deployment_status := "created", parent_version := parent_version,
          tags := [] }
      if saveOk then
        let mhash := md5hex model_instance
        let mv2 := { mv1 with model_hash := some mhash }
        let entry1 := { entry with
          latest_version := some version,
          total_versions := entry.total_versions + 1 }
        let s1 : Registry := { s with
          artifacts := dset version_key model_instance s.artifacts,
          versions := dset version_key mv2 s.versions,
          models := dset model_id entry1 s.models }
        .ok ⟨true, none⟩ s1
      else
        .ok ⟨false, some "Failed to save model: PersistenceFailure"⟩ s

/-- The guarded in-place status write
`if key in self.versions: self.versions[key].deployment_status = st`. -/
def setStatus (version_key status : String) (s : Registry) : Registry :=
  match dget version_key s.versions with
  | some mv =>
    { s with
      versions := dset version_key { mv with deployment_status := status } s.versions }
  | none => s

/-- Embedding of `ModelRegistry.deploy_version`.  The slot write, the two
status writes and `_save_deployments()` sit in a try block; on a
persistence failure with `rollback_on_failure` and a previous deployment,
the except clause restores the previous slot and calls
`_save_deployments()` again, which raises once more and propagates. -/
def deploy_version (saveOk : Bool) (now : Nat)
    (model_id version deployment_name : String)
    (rollback_on_failure : Bool) (s : Registry) : Outcome :=
  let version_key := model_id ++ ":" ++ version
  if dcontains version_key s.versions then
    let current_deployment := dget deployment_name s.deployments
    let newDep : Deployment := .mk model_id version now "active" current_deployment none
    let s1 : Registry := { s with deployments := dset deployment_name newDep s.deployments }
    let s2 := setStatus version_key "deployed" s1
    let s3 :=
      match current_deployment with
      | some cd => setStatus (cd.model_id ++ ":" ++ cd.version) "superseded" s2
      | none => s2
    if saveOk then
      .ok ⟨true, none⟩ s3
    else
      match current_deployment with
      | some cd =>
        if rollback_on_failure then
          .exc "PersistenceFailure"
            { s3 with deployments := dset deployment_name cd s3.deployments }
        else .ok ⟨false, some "Deployment failed: PersistenceFailure"⟩ s3
      | none => .ok ⟨false, some "Deployment failed: PersistenceFailure"⟩ s3
  else
    .ok ⟨false, some ("Version " ++ version_key ++ " not found")⟩ s

/-- Embedding of `ModelRegistry.rollback_deployment`.  The new slot is
`{**previous_deployment, deployed_at, status, rollback_from}`: it keeps
the restored slot's own `previous_deployment` field.  The except clause
returns an envelope. -/
def rollback_deployment (saveOk : Bool) (now : Nat) (deployment_name : String)
    (s : Registry) : Outcome :=
  match dget deployment_name s.deployments with
  | none => .ok ⟨false, some ("Deployment " ++ deployment_name ++ " not found")⟩ s
  | some current =>
    match current.previous_deployment with
    | none => .ok ⟨false, some "No previous deployment to rollback to"⟩ s
    | some prev =>
      let newDep : Deployment :=
        .mk prev.model_id prev.version now "active" prev.previous_deployment (some current)
      let s1 : Registry :=
        { s with deployments := dset deployment_name newDep s.deployments }
      let s2 := setStatus (current.model_id ++ ":" ++ current.version) "rolled_back" s1
      let s3 := setStatus (prev.model_id ++ ":" ++ prev.version) "deployed" s2
      if saveOk then .ok ⟨true, none⟩ s3
      else .ok ⟨false, some "Rollback failed: PersistenceFailure"⟩ s3

/-- Embedding of `ModelRegistry.tag_version`.  When the tag is already
present nothing is written and no save happens; otherwise the tag is
appended and `_save_versions()` runs unguarded, so a persistence failure
propagates. -/
def tag_version (saveOk : Bool) (model_id version tag : String)
    (s : Registry) : Outcome :=
  let version_key := model_id ++ ":" ++ version
  match dget version_key s.versions with
  | none => .ok ⟨false, some ("Version " ++ version_key ++ " not found")⟩ s
  | some mv =>
    if mv.tags.contains tag then .ok ⟨true, none⟩ s
    else
      let s1 : Registry := { s with
        versions := dset version_key { mv with tags := mv.tags ++ [tag] } s.versions }
      if saveOk then .ok ⟨true, none⟩ s1
      else .exc "PersistenceFailure" s1

/-- Embedding of `ModelRegistry.update_performance_metrics`.  The merge is
`dict.update`; `_save_versions()` runs unguarded, so a persistence failure
propagates. -/
def update_performance_metrics (saveOk : Bool) (model_id version : String)
    (metrics : List (String × Int)) (s : Registry) : Outcome :=
  let version_key := model_id ++ ":" ++ version
  match dget version_key s.versions with
  | none => .ok ⟨false, some ("Version " ++ version_key ++ " not found")⟩ s
  | some mv =>
    let s1 : Registry := { s with
      versions :=
        dset version_key
          { mv with performance_metrics := dmerge mv.performance_metrics metrics }
          s.versions }
    if saveOk then .ok ⟨true, none⟩ s1
    else .exc "PersistenceFailure" s1

/-- Python `max(l, key=lambda x: x.created_at)`: first element with the
greatest key (later elements replace only on strictly greater key). -/
def maxByCreated (l : List ModelVersion) : Option ModelVersion :=
  match l with
  | [] => none
  | v :: rest =>
    some (rest.foldl (fun best x => if best.created_at < x.created_at then x else best) v)

/-- Embedding of `ModelRegistry.delete_version`.  The latest-version check
reads `self.models[model_id]` outside any try/except, which raises
`KeyError` when the model is absent.  The artifact removal, dictionary
deletion, counter decrement and latest recomputation sit inside the try
block; the latest recomputation keeps every stored record whose key starts
with `model_id + ":"`. -/
def delete_version (saveOk : Bool) (model_id version : String) (force : Bool)
    (s : Registry) : Outcome :=
  let version_key := model_id ++ ":" ++ version
  match dget version_key s.versions with
  | none => .ok ⟨false, some ("Version " ++ version_key ++ " not found")⟩ s
  | some version_obj =>
    if version_obj.deployment_status = "deployed" ∧ force = false then
      .ok ⟨false, some "Cannot delete deployed version. Use force=True to override."⟩ s
    else
      match dget model_id s.models with
      | none => .exc "KeyError" s
      | some entry =>
        if entry.latest_version = some version ∧ force = false then
          .ok ⟨false, some "Cannot delete latest version. Use force=True to override."⟩ s
        else
          if saveOk then
            let s1 : Registry := { s with
              artifacts := derase version_key s.artifacts,
              versions := derase version_key s.versions }
            let entry1 := { entry with total_versions := entry.total_versions - 1 }
            let entry2 :=
              if entry.latest_version = some version then
                let remaining :=
                  (s1.versions.filter
                    (fun kv => pyStartsWith kv.1 (model_id ++ ":"))).map Prod.snd
                match maxByCreated remaining with
                | some latest => { entry1 with latest_version := some latest.version }
                | none => { entry1 with latest_version := none }
              else entry1
            .ok ⟨true, none⟩ { s1 with models := dset model_id entry2 s.models }
          else
            .ok ⟨false, some "Failed to delete version: PersistenceFailure"⟩ s

/-- Embedding of `ModelRegistry.load_model`.  The artifact read sits in a
try/except; a missing payload or a deserialization failure yields a
failure envelope. -/
def load_model (model_id : String) (versionOpt : Option String)
    (s : Registry) : Outcome :=
  match dget model_id s.models with
  | none => .ok ⟨false, some ("Model " ++ model_id ++ " not found")⟩ s
  | some entry =>
    let version :=
      match versionOpt with
      | some v => some v
      | none => entry.latest_version
    match version with
    | none => .ok ⟨false, some ("No versions available for model " ++ model_id)⟩ s
    | some v =>
      let version_key := model_id ++ ":" ++ v
      if dcontains version_key s.versions then
        match dget version_key s.artifacts with
        | none => .ok ⟨false, some ("Model file not found for " ++ version_key)⟩ s
        | some _ => .ok ⟨true, none⟩ s
      else
        .ok ⟨false, some ("Version " ++ v ++ " not found for model " ++ model_id)⟩ s

/-- The comparison block of `compare_versions` that the claims reference:
the per-key metric delta over the union of the key sets, and the two
hash-inequality booleans (the two full version snapshots the source also
returns are plain copies of stored fields and are omitted). -/
structure Comparison where
  performance_delta : List (String × Int)
  hash_different : Bool
  training_data_different : Bool

/-- Outcome of `compare_versions` (a pure read). -/
inductive CompareOutcome where
  | ok (c : Comparison)
  | err (msg : String)

/-- Embedding of `ModelRegistry.compare_versions`.  The delta iterates
`set(v1.keys) | set(v2.keys)`; the union is modelled as the deduplicated
concatenation of the two key lists (set iteration order is arbitrary and
only the resulting key→delta map matters). -/
def compare_versions (model_id version1 version2 : String)
    (s : Registry) : CompareOutcome :=
  let v1_key := model_id ++ ":" ++ version1
  let v2_key := model_id ++ ":" ++ version2
  match dget v1_key s.versions with
  | none => .err ("Version " ++ version1 ++ " not found")
  | some v1 =>
    match dget v2_key s.versions with
    | none => .err ("Version " ++ version2 ++ " not found")
    | some v2 =>
      let unionKeys :=
        ((v1.performance_metrics.map Prod.fst) ++ (v2.performance_metrics.map Prod.fst)).dedup
      let delta := unionKeys.map (fun k =>
        (k, (dget k v2.performance_metrics).getD 0 - (dget k v1.performance_metrics).getD 0))
      .ok { performance_delta := delta,
            hash_different := v1.model_hash != v2.model_hash,
            training_data_different := v1.training_data_hash != v2.training_data_hash }

/-! Association-list lemmas (Python-dict facts used throughout). -/

theorem dget_dset_self {α : Type} (k : String) (v : α) (l : List (String × α)) :
    dget k (dset k v l) = some v := by
  induction l with
  | nil => simp [dset, dget]
  | cons kv rest ih =>
    by_cases h : kv.1 = k
    · simp [dset, dget, h]
    · simp [dset, dget, h, ih]

theorem dget_dset_ne {α : Type} {a k : String} (v : α) (l : List (String × α))
    (h : a ≠ k) : dget a (dset k v l) = dget a l := by
  induction l with
  | nil => simp [dset, dget, Ne.symm h]
  | cons kv rest ih =>
    by_cases hk : kv.1 = k
    · simp [dset, dget, hk, Ne.symm h]
    · simp [dset, dget, hk, ih]

theorem dcontains_dset {α : Type} (a k : String) (v : α) (l : List (String × α))
    (h : dcontains a l = true) : dcontains a (dset k v l) = true := by
  by_cases hak : a = k
  · subst hak
    simp [dcontains, dget_dset_self]
  · simpa [dcontains, dget_dset_ne v l hak] using h

theorem dcontains_dset_self {α : Type} (k : String) (v : α) (l : List (String × α)) :
    dcontains k (dset k v l) = true := by
  simp [dcontains, dget_dset_self]

theorem mem_dset {α : Type} {kv : String × α} {k : String} {v : α}
    {l : List (String × α)} (h : kv ∈ dset k v l) : kv = (k, v) ∨ kv ∈ l := by
  induction l with
  | nil => simpa [dset] using h
  | cons kv' rest ih =>
    by_cases hk : kv'.1 = k
    · simp only [dset, if_pos hk, List.mem_cons] at h
      rcases h with h | h
      · exact Or.inl h
      · exact Or.inr (List.mem_cons_of_mem _ h)
    · simp only [dset, if_neg hk, List.mem_cons] at h
      rcases h with h | h
      · exact Or.inr (h ▸ List.mem_cons_self _ _)
      · rcases ih h with h | h
        · exact Or.inl h
        · exact Or.inr (List.mem_cons_of_mem _ h)

theorem keys_dset_of_contains {α : Type} {k : String} (v : α) {l : List (String × α)}
    (h : dcontains k l = true) : (dset k v l).map Prod.fst = l.map Prod.fst := by
  induction l with
  | nil => simp [dcontains, dget] at h
  | cons kv rest ih =>
    by_cases hk : kv.1 = k
    · simp [dset, hk]
    · have h' : dcontains k rest = true := by
        simpa [dcontains, dget, hk] using h
      simp [dset, hk, ih h']

theorem keys_dset_of_not_contains {α : Type} {k : String} (v : α) {l : List (String × α)}
    (h : dcontains k l = false) : (dset k v l).map Prod.fst = l.map Prod.fst ++ [k] := by
  induction l with
  | nil => simp [dset]
  | cons kv rest ih =>
    by_cases hk : kv.1 = k
    · exfalso
      simp [dcontains, dget, hk] at h
    · have h' : dcontains k rest = false := by
        simpa [dcontains, dget, hk] using h
      simp [dset, hk, ih h']

theorem dcontains_of_mem_keys {α : Type} {k : String} {l : List (String × α)}
    (h : k ∈ l.map Prod.fst) : dcontains k l = true := by
  induction l with
  | nil => simp at h
  | cons kv rest ih =>
    obtain ⟨a, b⟩ := kv
    rw [List.map_cons, List.mem_cons] at h
    rcases h with h1 | h1
    · obtain rfl : k = a := h1
      simp [dcontains, dget]
    · by_cases hh : a = k
      · simp [dcontains, dget, hh]
      · simpa [dcontains, dget, hh] using ih h1

theorem nodup_keys_dset {α : Type} (k : String) (v : α) {l : List (String × α)}
    (h : (l.map Prod.fst).Nodup) : ((dset k v l).map Prod.fst).Nodup := by
  cases hc : dcontains k l with
  | true => rw [keys_dset_of_contains v hc]; exact h
  | false =>
    rw [keys_dset_of_not_contains v hc]
    refine List.Nodup.append h (List.nodup_singleton k) ?_
    intro x hx hxk
    obtain rfl : x = k := by simpa using hxk
    rw [dcontains_of_mem_keys hx] at hc
    cases hc

theorem derase_sublist {α : Type} (k : String) (l : List (String × α)) :
    (derase k l).Sublist l := by
  induction l with
  | nil => simp [derase]
  | cons kv rest ih =>
    by_cases hk : kv.1 = k
    · simp only [derase, if_pos hk]
      exact (List.sublist_cons_self kv rest)
    · simp only [derase, if_neg hk]
      exact List.Sublist.cons₂ kv ih

theorem dget_mem {α : Type} {k : String} {v : α} {l : List (String × α)}
    (h : dget k l = some v) : (k, v) ∈ l := by
  induction l with
  | nil => simp [dget] at h
  | cons kv rest ih =>
    obtain ⟨a, b⟩ := kv
    by_cases hk : a = k
    · subst hk
      simp only [dget, if_pos rfl] at h
      obtain rfl := Option.some.inj h
      exact List.mem_cons_self _ _
    · simp only [dget, if_neg hk] at h
      exact List.mem_cons_of_mem _ (ih h)

/-! Facts about `setStatus` needed by the deploy/rollback proofs. -/

theorem setStatus_models (k st : String) (s : Registry) :
    (setStatus k st s).models = s.models := by
  unfold setStatus
  cases dget k s.versions <;> rfl

theorem setStatus_deployments (k st : String) (s : Registry) :
    (setStatus k st s).deployments = s.deployments := by
  unfold setStatus
  cases dget k s.versions <;> rfl

theorem setStatus_artifacts (k st : String) (s : Registry) :
    (setStatus k st s).artifacts = s.artifacts := by
  unfold setStatus
  cases dget k s.versions <;> rfl

/-! The cross-store integrity invariant and its preservation. -/

/-- The integrity invariant of the registry: every stored version record
is keyed by its own `model_id:version` composite and its model is present
in the models catalog, and no two records share a key. -/
def RegistryInv (s : Registry) : Prop :=
  (∀ kv ∈ s.versions,
      kv.1 = kv.2.model_id ++ ":" ++ kv.2.version ∧
      dcontains kv.2.model_id s.models = true) ∧
  (s.versions.map Prod.fst).Nodup

theorem inv_dset_version (s : Registry) (k : String) (mv mv' : ModelVersion)
    (hget : dget k s.versions = some mv)
    (hid : mv'.model_id = mv.model_id) (hver : mv'.version = mv.version)
    (h : RegistryInv s) :
    RegistryInv { s with versions := dset k mv' s.versions } := by
  obtain ⟨hall, hnd⟩ := h
  constructor
  · intro kv hkv
    rcases mem_dset hkv with rfl | hkv'
    · have hm := hall (k, mv) (dget_mem hget)
      exact ⟨by simpa [hid, hver] using hm.1, by simpa [hid] using hm.2⟩
    · exact hall kv hkv'
  · exact nodup_keys_dset k mv' hnd

theorem inv_setStatus (k st : String) (s : Registry) (h : RegistryInv s) :
    RegistryInv (setStatus k st s) := by
  unfold setStatus
  cases hget : dget k s.versions with
  | none => exact h
  | some mv =>
    exact inv_dset_version s k mv { mv with deployment_status := st } hget rfl rfl h

theorem inv_register (ok : Bool) (now : Nat) (mid mt d : String) (s : Registry)
    (h : RegistryInv s) : RegistryInv (register_model ok now mid mt d s).stateOf := by
  unfold register_model
  cases hc : dcontains mid s.models with
  | true => simpa [Outcome.stateOf, hc] using h
  | false =>
    have hinv : RegistryInv { s with
        models := dset mid
          { model_id := mid, model_type := mt, description := d, created_at := now,
            latest_version := none, total_versions := 0, status := "active" } s.models } := by
      obtain ⟨hall, hnd⟩ := h
      refine ⟨fun kv hkv => ?_, hnd⟩
      obtain ⟨h1, h2⟩ := hall kv hkv
      exact ⟨h1, dcontains_dset _ _ _ _ h2⟩
    cases ok <;> simpa [Outcome.stateOf, hc] using hinv

theorem inv_create (ok : Bool) (now : Nat) (mid ver inst : String)
    (td : Option (List String)) (pm : Option (List (String × Int)))
    (md : Option (List (String × String))) (pv : Option String) (s : Registry)
    (h : RegistryInv s) :
    RegistryInv (create_version ok now mid ver inst td pm md pv s).stateOf := by
  unfold create_version
  cases hm : dget mid s.models with
  | none => simpa [Outcome.stateOf] using h
  | some entry =>
    cases hc : dcontains (mid ++ ":" ++ ver) s.versions with
    | true => simpa [Outcome.stateOf, hc] using h
    | false =>
      cases ok with
      | false => simpa [Outcome.stateOf, hc] using h
      | true =>
        simp only [Outcome.stateOf, hc, Bool.false_eq_true, if_false, if_true]
        obtain ⟨hall, hnd⟩ := h
        constructor
        · intro kv hkv
          rcases mem_dset hkv with rfl | hkv'
          · exact ⟨rfl, dcontains_dset_self _ _ _⟩
          · obtain ⟨h1, h2⟩ := hall kv hkv'
            exact ⟨h1, dcontains_dset _ _ _ _ h2⟩
        · exact nodup_keys_dset _ _ hnd

theorem inv_deploy (ok : Bool) (now : Nat) (mid ver dep : String) (rb : Bool)
    (s : Registry) (h : RegistryInv s) :
    RegistryInv (deploy_version ok now mid ver dep rb s).stateOf := by
  unfold deploy_version
  cases hc : dcontains (mid ++ ":" ++ ver) s.versions with
  | false => simpa [Outcome.stateOf, hc] using h
  | true =>
    have h1 : RegistryInv { s with
        deployments := dset dep
          (.mk mid ver now "active" (dget dep s.deployments) none) s.deployments } := h
    have h2 := inv_setStatus (mid ++ ":" ++ ver) "deployed" _ h1
    cases hcd : dget dep s.deployments with
    | none =>
      cases ok <;> simp only [Outcome.stateOf, hc, hcd, if_true, if_false] <;>
        simpa [hcd] using h2
    | some cd =>
      have h3 := inv_setStatus (cd.model_id ++ ":" ++ cd.version) "superseded" _ h2
      cases ok with
      | true => simpa [Outcome.stateOf, hc, hcd] using h3
      | false =>
        cases rb with
        | true => simpa [Outcome.stateOf, hc, hcd] using h3
        | false => simpa [Outcome.stateOf, hc, hcd] using h3

theorem inv_rollback (ok : Bool) (now : Nat) (dep : String) (s : Registry)
    (h : RegistryInv s) :
    RegistryInv (rollback_deployment ok now dep s).stateOf := by
  unfold rollback_deployment
  cases hcd : dget dep s.deployments with
  | none => simpa [Outcome.stateOf] using h
  | some current =>
    cases hp : current.previous_deployment with
    | none => simpa [Outcome.stateOf, hp] using h
    | some prev =>
      have h1 : RegistryInv { s with
          deployments := dset dep
            (.mk prev.model_id prev.version now "active" prev.previous_deployment
              (some current)) s.deployments } := h
      have h2 := inv_setStatus (current.model_id ++ ":" ++ current.version) "rolled_back" _ h1
      have h3 := inv_setStatus (prev.model_id ++ ":" ++ prev.version) "deployed" _ h2
      cases ok <;> simpa [Outcome.stateOf, hp] using h3

theorem inv_tag (ok : Bool) (mid ver tg : String) (s : Registry)
    (h : RegistryInv s) : RegistryInv (tag_version ok mid ver tg s).stateOf := by
  simp only [tag_version]
  cases hv : dget (mid ++ ":" ++ ver) s.versions with
  | none => simpa [Outcome.stateOf] using h
  | some mv =>
    by_cases ht : tg ∈ mv.tags
    · simpa [Outcome.stateOf, ht] using h
    · have h1 := inv_dset_version s (mid ++ ":" ++ ver) mv
        { mv with tags := mv.tags ++ [tg] } hv rfl rfl h
      cases ok <;> simpa [Outcome.stateOf, ht] using h1

theorem inv_update_metrics (ok : Bool) (mid ver : String)
    (metrics : List (String × Int)) (s : Registry)
    (h : RegistryInv s) :
    RegistryInv (update_performance_metrics ok mid ver metrics s).stateOf := by
  simp only [update_performance_metrics]
  cases hv : dget (mid ++ ":" ++ ver) s.versions with
  | none => simpa [Outcome.stateOf] using h
  | some mv =>
    have h1 := inv_dset_version s (mid ++ ":" ++ ver) mv
      { mv with performance_metrics := dmerge mv.performance_metrics metrics } hv rfl rfl h
    cases ok <;> simpa [Outcome.stateOf] using h1

theorem inv_delete (ok : Bool) (mid ver : String) (force : Bool) (s : Registry)
    (h : RegistryInv s) :
    RegistryInv (delete_version ok mid ver force s).stateOf := by
  have hsucc : ∀ entry : ModelEntry, RegistryInv { s with
      artifacts := derase (mid ++ ":" ++ ver) s.artifacts,
      versions := derase (mid ++ ":" ++ ver) s.versions,
      models := dset mid entry s.models } := by
    intro entry
    obtain ⟨hall, hnd⟩ := h
    constructor
    · intro kv hkv
      have hkv' : kv ∈ s.versions :=
        (derase_sublist (mid ++ ":" ++ ver) s.versions).subset hkv
      obtain ⟨h1, h2⟩ := hall kv hkv'
      exact ⟨h1, dcontains_dset _ _ _ _ h2⟩
    · exact List.Nodup.sublist
        ((derase_sublist (mid ++ ":" ++ ver) s.versions).map Prod.fst) hnd
  simp only [delete_version]
  split
  · simpa [Outcome.stateOf] using h
  · split
    · simpa [Outcome.stateOf] using h
    · split
      · simpa [Outcome.stateOf] using h
      · split
        · simpa [Outcome.stateOf] using h
        · split
          · simpa [Outcome.stateOf] using hsucc _
          · simpa [Outcome.stateOf] using h

/-- The states reachable from the empty registry by the public mutating
operations, under any inputs and any persistence behavior (a propagated
exception also leaves a state behind). -/
inductive Reachable : Registry → Prop where
  | init : Reachable emptyRegistry
  | reg (ok : Bool) (now : Nat) (mid mt d : String) {s : Registry} :
      Reachable s → Reachable (register_model ok now mid mt d s).stateOf
  | creat (ok : Bool) (now : Nat) (mid ver inst : String) (td : Option (List String))
      (pm : Option (List (String × Int))) (md : Option (List (String × String)))
      (pv : Option String) {s : Registry} :
      Reachable s → Reachable (create_version ok now mid ver inst td pm md pv s).stateOf
  | deploy (ok : Bool) (now : Nat) (mid ver dep : String) (rb : Bool) {s : Registry} :
      Reachable s → Reachable (deploy_version ok now mid ver dep rb s).stateOf
  | rollback (ok : Bool) (now : Nat) (dep : String) {s : Registry} :
      Reachable s → Reachable (rollback_deployment ok now dep s).stateOf
  | tag (ok : Bool) (mid ver tg : String) {s : Registry} :
      Reachable s → Reachable (tag_version ok mid ver tg s).stateOf
  | upd (ok : Bool) (mid ver : String) (metrics : List (String × Int)) {s : Registry} :
      Reachable s → Reachable (update_performance_metrics ok mid ver metrics s).stateOf
  | del (ok : Bool) (mid ver : String) (force : Bool) {s : Registry} :
      Reachable s → Reachable (delete_version ok mid ver force s).stateOf

/-! Concrete registry states built by the public operations, used as
scenario inputs below. -/

/-- Model `m` registered. -/
def sReg : Registry := (register_model true 0 "m" "qsar" "" emptyRegistry).stateOf

/-- Model `m` with version `1` created. -/
def sVer : Registry := (create_version true 1 "m" "1" "payloadA" none none none none sReg).stateOf

/-- Version `m:1` deployed to slot `prod`. -/
def sDep : Registry := (deploy_version true 2 "m" "1" "prod" true sVer).stateOf

/-- Three versions of `m` created and deployed to `prod` in order 1, 2, 3. -/
def sChain : Registry :=
  (deploy_version true 6 "m" "3" "prod" true
    (deploy_version true 5 "m" "2" "prod" true
      (deploy_version true 4 "m" "1" "prod" true
        (create_version true 3 "m" "3" "p3" none none none none
          (create_version true 2 "m" "2" "p2" none none none none
            (create_version true 1 "m" "1" "p1" none none none none
              sReg).stateOf).stateOf).stateOf).stateOf).stateOf).stateOf

/-- Models `a` and `a:b` registered; versions `a:1`, `a:b:9`, `a:2`
created in that order (so `a:b:9` has a later creation time than `a:1`). -/
def sColon : Registry :=
  (create_version true 4 "a" "2" "p2" none none none none
    (create_version true 3 "a:b" "9" "p9" none none none none
      (create_version true 2 "a" "1" "p1" none none none none
        (register_model true 1 "a:b" "qsar" ""
          (register_model true 0 "a" "qsar" "" emptyRegistry).stateOf).stateOf).stateOf).stateOf).stateOf

/-! Claim C9. -/

/-- C9: in every registry state reachable from the empty registry by the
public mutating operations, every stored version record is keyed by its
own `model_id:version`, its model id is present in the models catalog, and
no two records share a key; every operation preserves this invariant. -/
theorem registry_invariant_reachable (s : Registry) (h : Reachable s) : RegistryInv s := by
  induction h with
  | init =>
    constructor
    · intro kv hkv
      simp [emptyRegistry] at hkv
    · simp [emptyRegistry]
  | reg ok now mid mt d hr ih => exact inv_register ok now mid mt d _ ih
  | creat ok now mid ver inst td pm md pv hr ih => exact inv_create ok now mid ver inst td pm md pv _ ih
  | deploy ok now mid ver dep rb hr ih => exact inv_deploy ok now mid ver dep rb _ ih
  | rollback ok now dep hr ih => exact inv_rollback ok now dep _ ih
  | tag ok mid ver tg hr ih => exact inv_tag ok mid ver tg _ ih
  | upd ok mid ver metrics hr ih => exact inv_update_metrics ok mid ver metrics _ ih
  | del ok mid ver force hr ih => exact inv_delete ok mid ver force _ ih

/-- Witness for C9: the invariant holds of the concrete reachable state
`sDep`, via the reachability theorem. -/
theorem registry_invariant_reachable_witness : RegistryInv sDep :=
  registry_invariant_reachable sDep
    (Reachable.deploy true 2 "m" "1" "prod" true
      (Reachable.creat true 1 "m" "1" "payloadA" none none none none
        (Reachable.reg true 0 "m" "qsar" "" Reachable.init)))

/-! Claim C1. -/

/-- C1 (documents a code bug): redeploying the currently deployed version
to its own slot is not a no-op.  Before the redeploy `m:1` has status
`deployed` and the `prod` slot carries no previous deployment; the
redeploy succeeds, but it sets the deployment status of `m:1` to
`superseded` (the code marks the previous slot's version superseded and
that version is the same one) and nests the old slot as the new slot's
`previous_deployment`. -/
theorem redeploy_same_version_marks_superseded :
    (dget "m:1" sDep.versions).map (fun v => v.deployment_status) = some "deployed"
    ∧ (dget "prod" sDep.deployments).map (fun d => d.previous_deployment.isSome) = some false
    ∧ (deploy_version true 3 "m" "1" "prod" true sDep).successOf = true
    ∧ (dget "m:1" (deploy_version true 3 "m" "1" "prod" true sDep).stateOf.versions).map
        (fun v => v.deployment_status) = some "superseded"
    ∧ (dget "prod" (deploy_version true 3 "m" "1" "prod" true sDep).stateOf.deployments).map
        (fun d => d.previous_deployment.isSome) = some true := by
  refine ⟨?_, ?_, ?_, ?_, ?_⟩ <;> decide

/-! Claim C2: counterexample. -/

/-- Counterexample to C2 as stated: after deploying versions 1, 2, 3 of
model `m` to `prod` in succession, a first rollback succeeds and restores
the slot for version 2, whose snapshot still carries version 1 as its own
previous deployment — so a second immediate rollback also succeeds,
contradicting the claim that it fails regardless of the slot's deploy
history. -/
theorem second_rollback_can_succeed_after_deep_history :
    (rollback_deployment true 7 "prod" sChain).successOf = true
    ∧ (rollback_deployment true 8 "prod"
        (rollback_deployment true 7 "prod" sChain).stateOf).successOf = true := by
  refine ⟨?_, ?_⟩ <;> decide

/-! Claim C6. -/

/-- C6 (documents a code bug): the latest-version recomputation after a
successful delete filters stored keys by the text prefix `model_id:`, so
with models `a` and `a:b` registered, deleting the latest version of `a`
installs version `9` of model `a:b` (the remaining prefix-matching record
with the greatest creation time) as `latest_version` of `a`, even though
model `a` has no version `9` (`a:9` is not a stored key) — instead of the
remaining version `1` of model `a` itself.  The version counter of `a` is
still decremented to 1. -/
theorem delete_latest_crossmodel_pollution :
    (delete_version true "a" "2" true sColon).successOf = true
    ∧ (dget "a" (delete_version true "a" "2" true sColon).stateOf.models).map
        (fun e => e.latest_version) = some (some "9")
    ∧ dcontains "a:9" (delete_version true "a" "2" true sColon).stateOf.versions = false
    ∧ dcontains "a:1" (delete_version true "a" "2" true sColon).stateOf.versions = true
    ∧ (dget "a" (delete_version true "a" "2" true sColon).stateOf.models).map
        (fun e => e.total_versions) = some 1 := by
  refine ⟨?_, ?_, ?_, ?_, ?_⟩ <;>
    simp [sColon, sReg, delete_version, create_version, register_model,
      Outcome.stateOf, Outcome.successOf, dget, dset, dcontains, derase, maxByCreated,
      setStatus, emptyRegistry, md5hex, canonicalJoin, pyStartsWith]

/-! Claim C7: counterexample. -/

/-- Counterexample to C7 as stated: `tag_version` writes the new tag and
then calls `_save_versions()` outside any try/except, so when the
persistence step fails the call does not return a result envelope — the
exception propagates to the caller. -/
theorem tag_version_propagates_persistence_exception :
    (tag_version false "m" "1" "newtag" sVer).isEnvelope = false := by
  decide

/-! Claim C2: the amended statement. -/

theorem rollback_fails_without_history (ok : Bool) (now : Nat) (d : String)
    (s : Registry) (cur : Deployment)
    (hcur : dget d s.deployments = some cur)
    (hp : cur.previous_deployment = none) :
    rollback_deployment ok now d s
      = .ok ⟨false, some "No previous deployment to rollback to"⟩ s := by
  simp [rollback_deployment, hcur, hp]

/-- C2 as amended: if `rollback(d)` succeeds and the slot snapshot it
restores carries no `previous_deployment` of its own (as is the case when
the restored slot was produced by a deploy into an empty slot), then a
second immediate `rollback(d)` fails with the no-previous-deployment
error and leaves the state unchanged. -/
theorem second_rollback_fails_when_restored_slot_has_no_history
    (saveOk2 : Bool) (now now2 : Nat) (d : String) (s : Registry)
    (cur prev : Deployment)
    (hcur : dget d s.deployments = some cur)
    (hprev : cur.previous_deployment = some prev)
    (hnone : prev.previous_deployment = none) :
    (rollback_deployment true now d s).successOf = true
    ∧ rollback_deployment saveOk2 now2 d (rollback_deployment true now d s).stateOf
        = .ok ⟨false, some "No previous deployment to rollback to"⟩
            (rollback_deployment true now d s).stateOf := by
  have hstate : (rollback_deployment true now d s).stateOf
      = setStatus (prev.model_id ++ ":" ++ prev.version) "deployed"
          (setStatus (cur.model_id ++ ":" ++ cur.version) "rolled_back"
            { s with deployments := dset d (Deployment.mk prev.model_id prev.version now
                "active" prev.previous_deployment (some cur)) s.deployments }) := by
    simp [rollback_deployment, hcur, hprev, Outcome.stateOf]
  constructor
  · simp [rollback_deployment, hcur, hprev, Outcome.successOf]
  · rw [hstate]
    refine rollback_fails_without_history saveOk2 now2 d _
      (Deployment.mk prev.model_id prev.version now "active" prev.previous_deployment
        (some cur)) ?_ ?_
    · rw [setStatus_deployments, setStatus_deployments]
      exact dget_dset_self _ _ _
    · simpa [Deployment.previous_deployment] using hnone

/-- Witness for the amended C2: in the two-deploy scenario the first
rollback succeeds and the second fails. -/
theorem second_rollback_no_history_witness :
    (rollback_deployment true 7 "prod"
        (deploy_version true 5 "m" "2" "prod" true
          (deploy_version true 4 "m" "1" "prod" true
            (create_version true 2 "m" "2" "p2" none none none none
              sVer).stateOf).stateOf).stateOf).successOf = true
    ∧ rollback_deployment true 8 "prod"
        (rollback_deployment true 7 "prod"
          (deploy_version true 5 "m" "2" "prod" true
            (deploy_version true 4 "m" "1" "prod" true
              (create_version true 2 "m" "2" "p2" none none none none
                sVer).stateOf).stateOf).stateOf).stateOf
      = .ok ⟨false, some "No previous deployment to rollback to"⟩
          (rollback_deployment true 7 "prod"
            (deploy_version true 5 "m" "2" "prod" true
              (deploy_version true 4 "m" "1" "prod" true
                (create_version true 2 "m" "2" "p2" none none none none
                  sVer).stateOf).stateOf).stateOf).stateOf := by
  refine second_rollback_fails_when_restored_slot_has_no_history true 7 8 "prod" _
    (Deployment.mk "m" "2" 5 "active"
      (some (Deployment.mk "m" "1" 4 "active" none none)) none)
    (Deployment.mk "m" "1" 4 "active" none none) ?_ ?_ ?_
  · rfl
  · rfl
  · rfl

/-! Claim C3. -/

/-- C3: for an existing version that is currently deployed, or that is the
model's latest version, `delete_version` without `force` is refused with
an invalid-operation error and the registry state is returned unchanged. -/
theorem delete_without_force_refused_on_deployed_or_latest
    (saveOk : Bool) (m v : String) (s : Registry) (mv : ModelVersion)
    (entry : ModelEntry)
    (hv : dget (m ++ ":" ++ v) s.versions = some mv)
    (hm : dget m s.models = some entry)
    (hcond : mv.deployment_status = "deployed" ∨ entry.latest_version = some v) :
    delete_version saveOk m v false s
      = .ok ⟨false, some "Cannot delete deployed version. Use force=True to override."⟩ s
    ∨ delete_version saveOk m v false s
      = .ok ⟨false, some "Cannot delete latest version. Use force=True to override."⟩ s := by
  by_cases hd : mv.deployment_status = "deployed"
  · left
    simp [delete_version, hv, hd]
  · right
    have hl : entry.latest_version = some v := hcond.resolve_left hd
    simp [delete_version, hv, hm, hd, hl]

/-- Witness for C3: deleting the deployed (and latest) version `m:1`
without force is refused and leaves `sDep` unchanged. -/
theorem delete_without_force_refused_witness :
    delete_version true "m" "1" false sDep
      = .ok ⟨false, some "Cannot delete deployed version. Use force=True to override."⟩ sDep
    ∨ delete_version true "m" "1" false sDep
      = .ok ⟨false, some "Cannot delete latest version. Use force=True to override."⟩ sDep :=
  delete_without_force_refused_on_deployed_or_latest true "m" "1" sDep
    { model_id := "m", version := "1", model_type := "qsar", created_at := 1,
      metadata := [], performance_metrics := [], training_data_hash := none,
      model_hash := some "payloadA", deployment_status := "deployed",
      parent_version := none, tags := [] }
    { model_id := "m", model_type := "qsar", description := "", created_at := 0,
      latest_version := some "1", total_versions := 1, status := "active" }
    (by decide) (by decide) (Or.inl rfl)

/-! Claim C4. -/

/-- C4: under working persistence, whenever a public mutating operation
returns a failure envelope (which, with persistence working, happens
exactly on the not-found / already-exists / invalid-operation caller
errors), the registry state it returns is the input state unchanged; in
particular a second `register_model` with the same id fails and changes
nothing. -/
theorem caller_error_failures_leave_state_unchanged
    (now : Nat) (mid mt desc ver inst dep tg : String) (rb force : Bool)
    (td : Option (List String)) (pm : Option (List (String × Int)))
    (md : Option (List (String × String))) (pv : Option String)
    (metrics : List (String × Int)) (s : Registry) :
    ((register_model true now mid mt desc s).failedEnvelope = true →
      (register_model true now mid mt desc s).stateOf = s)
    ∧ ((create_version true now mid ver inst td pm md pv s).failedEnvelope = true →
      (create_version true now mid ver inst td pm md pv s).stateOf = s)
    ∧ ((deploy_version true now mid ver dep rb s).failedEnvelope = true →
      (deploy_version true now mid ver dep rb s).stateOf = s)
    ∧ ((rollback_deployment true now dep s).failedEnvelope = true →
      (rollback_deployment true now dep s).stateOf = s)
    ∧ ((tag_version true mid ver tg s).failedEnvelope = true →
      (tag_version true mid ver tg s).stateOf = s)
    ∧ ((update_performance_metrics true mid ver metrics s).failedEnvelope = true →
      (update_performance_metrics true mid ver metrics s).stateOf = s)
    ∧ ((delete_version true mid ver force s).failedEnvelope = true →
      (delete_version true mid ver force s).stateOf = s) := by
  refine ⟨?_, ?_, ?_, ?_, ?_, ?_, ?_⟩
  · simp only [register_model]
    repeat' split
    all_goals simp_all [Outcome.failedEnvelope, Outcome.stateOf]
  · simp only [create_version]
    repeat' split
    all_goals simp_all [Outcome.failedEnvelope, Outcome.stateOf]
  · simp only [deploy_version]
    repeat' split
    all_goals simp_all [Outcome.failedEnvelope, Outcome.stateOf]
  · simp only [rollback_deployment]
    repeat' split
    all_goals simp_all [Outcome.failedEnvelope, Outcome.stateOf]
  · simp only [tag_version]
    repeat' split
    all_goals simp_all [Outcome.failedEnvelope, Outcome.stateOf]
  · simp only [update_performance_metrics]
    repeat' split
    all_goals simp_all [Outcome.failedEnvelope, Outcome.stateOf]
  · simp only [delete_version]
    repeat' split
    all_goals simp_all [Outcome.failedEnvelope, Outcome.stateOf]

/-- Witness for C4: registering `m` a second time fails (it already
exists in `sVer`) and leaves the registry unchanged. -/
theorem caller_error_unchanged_witness :
    (register_model true 5 "m" "qsar" "" sVer).failedEnvelope = true
    ∧ (register_model true 5 "m" "qsar" "" sVer).stateOf = sVer := by
  constructor
  · decide
  · exact (caller_error_failures_leave_state_unchanged 5 "m" "qsar" "" "1" "p" "prod"
      "t" true true none none none none [] sVer).1 (by decide)

/-! Claim C5. -/

theorem dget_map_self (f : String → Int) :
    ∀ (l : List String) (k : String), k ∈ l →
      dget k (l.map (fun k' => (k', f k'))) = some (f k) := by
  intro l
  induction l with
  | nil => intro k hk; cases hk
  | cons a rest ih =>
    intro k hk
    by_cases ha : a = k
    · subst ha
      simp [dget]
    · rcases List.mem_cons.mp hk with rfl | hk'
      · exact absurd rfl ha
      · simp [dget, ha, ih _ hk']

/-- C5: when both versions exist, `compare_versions` succeeds, its
performance delta maps every key of the union of the two metric maps to
`metrics2.get(k, 0) - metrics1.get(k, 0)` (a missing metric counts as 0),
and it reports whether the two `model_hash` values differ and whether the
two `training_data_hash` values differ. -/
theorem compare_versions_delta_and_hash_flags
    (m a b : String) (s : Registry) (r1 r2 : ModelVersion)
    (h1 : dget (m ++ ":" ++ a) s.versions = some r1)
    (h2 : dget (m ++ ":" ++ b) s.versions = some r2) :
    ∃ c, compare_versions m a b s = .ok c
      ∧ (∀ k, k ∈ r1.performance_metrics.map Prod.fst
            ∨ k ∈ r2.performance_metrics.map Prod.fst →
          dget k c.performance_delta
            = some ((dget k r2.performance_metrics).getD 0
                - (dget k r1.performance_metrics).getD 0))
      ∧ (c.hash_different = true ↔ r1.model_hash ≠ r2.model_hash)
      ∧ (c.training_data_different = true ↔ r1.training_data_hash ≠ r2.training_data_hash) := by
  refine ⟨⟨(((r1.performance_metrics.map Prod.fst)
        ++ (r2.performance_metrics.map Prod.fst)).dedup).map
        (fun k => (k, (dget k r2.performance_metrics).getD 0
          - (dget k r1.performance_metrics).getD 0)),
      r1.model_hash != r2.model_hash,
      r1.training_data_hash != r2.training_data_hash⟩,
    ?_, ?_, ?_, ?_⟩
  · simp [compare_versions, h1, h2]
  · intro k hk
    have hk' : k ∈ ((r1.performance_metrics.map Prod.fst)
        ++ (r2.performance_metrics.map Prod.fst)).dedup := by
      rw [List.mem_dedup, List.mem_append]
      exact hk
    exact dget_map_self _ _ _ hk'
  · exact bne_iff_ne
  · exact bne_iff_ne

/-- Registry with versions `a` and `b` of model `m`, carrying metrics
`acc = 3, f1 = 5` and `acc = 4` respectively. -/
def sCmp : Registry :=
  (create_version true 2 "m" "b" "pb" none (some [("acc", 4)]) none none
    (create_version true 1 "m" "a" "pa" none (some [("acc", 3), ("f1", 5)]) none none
      sReg).stateOf).stateOf

/-- Witness for C5: comparing the two metric-carrying versions of `sCmp`
yields delta `acc = 1` and `f1 = -5`, and flags the differing hashes. -/
theorem compare_versions_delta_witness :
    ∃ c, compare_versions "m" "a" "b" sCmp = .ok c
      ∧ dget "acc" c.performance_delta = some 1
      ∧ dget "f1" c.performance_delta = some (-5)
      ∧ c.hash_different = true := by
  obtain ⟨c, hc, hdelta, hh, ht⟩ := compare_versions_delta_and_hash_flags "m" "a" "b" sCmp
    { model_id := "m", version := "a", model_type := "qsar", created_at := 1,
      metadata := [], performance_metrics := [("acc", 3), ("f1", 5)],
      training_data_hash := none, model_hash := some "pa",
      deployment_status := "created", parent_version := none, tags := [] }
    { model_id := "m", version := "b", model_type := "qsar", created_at := 2,
      metadata := [], performance_metrics := [("acc", 4)],
      training_data_hash := none, model_hash := some "pb",
      deployment_status := "created", parent_version := none, tags := [] }
    (by rfl) (by rfl)
  refine ⟨c, hc, ?_, ?_, ?_⟩
  · simpa [dget] using hdelta "acc" (Or.inl (by simp))
  · simpa [dget] using hdelta "f1" (Or.inl (by simp))
  · exact hh.mpr (by simp)

/-! Claim C7: the amended statement. -/

/-- C7 as amended: when the persistence layer works, every public
operation returns a result envelope rather than raising — for
`delete_version` provided the addressed model id is registered, since its
latest-version guard reads the models dictionary unguarded.  (When
persistence fails, `register_model`, `tag_version` and
`update_performance_metrics` propagate the exception instead, as the
counterexample shows.) -/
theorem operations_return_envelopes_when_persistence_succeeds
    (now : Nat) (mid mt desc ver inst dep tg : String) (rb force : Bool)
    (td : Option (List String)) (pm : Option (List (String × Int)))
    (md : Option (List (String × String))) (pv : Option String)
    (metrics : List (String × Int)) (vq : Option String) (s : Registry) :
    (register_model true now mid mt desc s).isEnvelope = true
    ∧ (create_version true now mid ver inst td pm md pv s).isEnvelope = true
    ∧ (deploy_version true now mid ver dep rb s).isEnvelope = true
    ∧ (rollback_deployment true now dep s).isEnvelope = true
    ∧ (tag_version true mid ver tg s).isEnvelope = true
    ∧ (update_performance_metrics true mid ver metrics s).isEnvelope = true
    ∧ (dcontains mid s.models = true →
        (delete_version true mid ver force s).isEnvelope = true)
    ∧ (load_model mid vq s).isEnvelope = true := by
  refine ⟨?_, ?_, ?_, ?_, ?_, ?_, ?_, ?_⟩
  · simp only [register_model]
    repeat' split
    all_goals simp_all [Outcome.isEnvelope]
  · simp only [create_version]
    repeat' split
    all_goals simp_all [Outcome.isEnvelope]
  · simp only [deploy_version]
    repeat' split
    all_goals simp_all [Outcome.isEnvelope]
  · simp only [rollback_deployment]
    repeat' split
    all_goals simp_all [Outcome.isEnvelope]
  · simp only [tag_version]
    repeat' split
    all_goals simp_all [Outcome.isEnvelope]
  · simp only [update_performance_metrics]
    repeat' split
    all_goals simp_all [Outcome.isEnvelope]
  · intro hc
    simp only [delete_version]
    cases hv : dget (mid ++ ":" ++ ver) s.versions with
    | none => simp [Outcome.isEnvelope]
    | some vo =>
      split
      · simp [Outcome.isEnvelope]
      · cases hm2 : dget mid s.models with
        | none => simp [dcontains, hm2] at hc
        | some e =>
          repeat' split
          all_goals simp_all [Outcome.isEnvelope]
  · simp only [load_model]
    repeat' split
    all_goals simp_all [Outcome.isEnvelope]

/-- Witness for the amended C7: on `sVer` (where model `m` is registered)
`delete_version` returns an envelope. -/
theorem envelopes_when_persistence_succeeds_witness :
    dcontains "m" sVer.models = true
    ∧ (delete_version true "m" "1" true sVer).isEnvelope = true := by
  refine ⟨by decide, ?_⟩
  exact (operations_return_envelopes_when_persistence_succeeds 9 "m" "qsar" "" "1" "p"
    "prod" "t" true true none none none none [] none sVer).2.2.2.2.2.2.1 (by decide)

/-! Claim C8. -/

/-- C8: `create_version` invoked with a permutation of the training data
produces exactly the same outcome — in particular the same recorded
`training_data_hash` — because the digest input is the concatenation of
the training inputs sorted into canonical order. -/
theorem training_data_hash_permutation_invariant
    (saveOk : Bool) (now : Nat) (m v inst : String)
    (pm : Option (List (String × Int))) (md : Option (List (String × String)))
    (pv : Option String) (s : Registry) (td td' : List String)
    (hperm : td.Perm td') :
    create_version saveOk now m v inst (some td) pm md pv s
      = create_version saveOk now m v inst (some td') pm md pv s := by
  have hjoin : canonicalJoin td = canonicalJoin td' := by
    unfold canonicalJoin
    congr 1
    exact List.eq_of_perm_of_sorted
      (((List.perm_insertionSort _ td).trans hperm).trans
        (List.perm_insertionSort _ td').symm)
      (List.sorted_insertionSort _ td) (List.sorted_insertionSort _ td')
  have hlen : td.length = td'.length := hperm.length_eq
  have hemp : td.isEmpty = td'.isEmpty := by
    cases td <;> cases td' <;> simp_all
  simp only [create_version, hjoin, hemp]

/-- Witness for C8: creating a version with `["b", "a"]` and with
`["a", "b"]` gives identical outcomes. -/
theorem training_data_hash_permutation_witness :
    (["b", "a"] : List String).Perm ["a", "b"]
    ∧ create_version true 1 "m" "1" "p" (some ["b", "a"]) none none none sReg
      = create_version true 1 "m" "1" "p" (some ["a", "b"]) none none none sReg := by
  constructor
  · decide
  · exact training_data_hash_permutation_invariant true 1 "m" "1" "p" none none none sReg
      _ _ (by decide)

/-! Claim C10. -/

/-- C10: `create_version` with an empty training-data list behaves exactly
as if no training data had been supplied (Python truthiness makes `if
training_data:` skip both), and on the success path the stored record's
`training_data_hash` is `None` rather than a digest of the empty input. -/
theorem create_version_empty_training_data_like_none
    (saveOk : Bool) (now : Nat) (m v inst : String)
    (pm : Option (List (String × Int))) (md : Option (List (String × String)))
    (pv : Option String) (s : Registry) :
    create_version saveOk now m v inst (some []) pm md pv s
      = create_version saveOk now m v inst none pm md pv s
    ∧ (∀ entry, dget m s.models = some entry →
        dcontains (m ++ ":" ++ v) s.versions = false →
        (dget (m ++ ":" ++ v)
            (create_version true now m v inst (some []) pm md pv s).stateOf.versions).map
          (fun r => r.training_data_hash) = some none) := by
  constructor
  · simp [create_version]
  · intro entry hm hc
    simp [create_version, hm, hc, Outcome.stateOf, dget_dset_self]

/-- Witness for C10: creating `m:1` on `sReg` with an empty training list
stores `training_data_hash = None`. -/
theorem create_version_empty_training_data_witness :
    (dget ("m" ++ ":" ++ "1")
        (create_version true 1 "m" "1" "p" (some []) none none none sReg).stateOf.versions).map
      (fun r => r.training_data_hash) = some none :=
  (create_version_empty_training_data_like_none true 1 "m" "1" "p" none none none sReg).2
    { model_id := "m", model_type := "qsar", description := "", created_at := 0,
      latest_version := none, total_versions := 0, status := "active" }
    (by rfl) (by rfl)

end PharmOS
